import Mathlib

/-!
# Verification of the dlopen demo (src/src/main.c)

The program under verification is a single `main` that
  1. calls `dlopen(NULL, RTLD_LAZY)` (line 9),
  2. returns `EXIT_FAILURE` when the handle is null (lines 14-15),
  3. calls `dlsym` for `"malloc"`, `"printf"`, `"free"` with no null
     checks (lines 16-19),
  4. invokes `printf("Hello, World!\n%s\n", dlerror())` — `dlerror()` is
     evaluated as an argument on the success path (line 25),
  5. invokes `malloc(3)` and `free(a)` through the resolved pointers
     (lines 26-28), and
  6. returns `EXIT_SUCCESS` (line 29).
It never calls `dlclose`.

The platform loader (`dlopen`/`dlsym`/`dlerror`/`dlclose`) is not part of
the repository's sources, so it is modelled from the spec: an export
table mapping symbol names to non-null addresses, an Open primitive that
either yields a table or fails with `LoadError`, and a Resolve primitive
that fails with `SymbolNotFoundError` on absent names while overwriting
the process-wide diagnostic.  `main` itself is embedded as `mainRun`, a
function from the platform environment to the trace of loader events the
run performs together with its exit status; invoking a null function
pointer is C undefined behavior and is modelled as a crash (the trace
stops at the offending invocation and no exit status is produced).
-/

namespace Dlopen

/-- stdlib exit status for success. -/
def EXIT_SUCCESS : Nat := 0

/-- stdlib exit status for failure. -/
def EXIT_FAILURE : Nat := 1

/-- Association lookup in an export table: the address stored for the
first entry named `s`, if any. -/
def lookupSym : List (String × Nat) → String → Option Nat
  | [], _ => none
  | (n, a) :: rest, s => if n = s then some a else lookupSym rest s

/-- Modelled from the spec: a shared object's exported symbol table.
Every exported symbol has a real (non-null) address; an address of `0`
models the C `NULL` pointer and never appears in the table, so the
underlying `dlsym` primitive returns `0` exactly for absent names. -/
structure SymTable where
  entries : List (String × Nat)
  nonnull : ∀ e ∈ entries, e.2 ≠ 0

/-- The raw `dlsym` primitive as `main` sees it: the address of `s` in
table `t`, or `0` (NULL) when `s` is absent. -/
def dlsym (t : SymTable) (s : String) : Nat :=
  (lookupSym t.entries s).getD 0

/-- Modelled from the spec: the platform environment of one run of
`main` — the outcome of `dlopen(NULL, RTLD_LAZY)`: `some` export table of
the process's own symbols on success, `none` on `LoadError`. -/
structure Platform where
  openResult : Option SymTable

/-- Loader events a run of `main` can perform, in program order:
`openCall b` is the `dlopen` call (`b` = whether it succeeded),
`resolveCall s a` is `dlsym` on name `s` returning address `a`,
`diagCall` is the `dlerror()` call, `invokeCall a` is a call through a
resolved function pointer at address `a`, and `closeCall` is `dlclose`. -/
inductive Event where
  | openCall : Bool → Event
  | resolveCall : String → Nat → Event
  | diagCall : Event
  | invokeCall : Nat → Event
  | closeCall : Event
deriving DecidableEq, Repr

/-- Shallow embedding of `main` (src/src/main.c lines 9-29).  The run
yields the trace of loader events in the order the C statements execute
them and the exit status: `dlopen` first; on a null handle the run stops
with `EXIT_FAILURE`; otherwise the three `dlsym` calls, the `dlerror()`
argument evaluation, then the `printf`, `malloc`, `free` invocations in
that order.  A call through a null pointer is undefined behavior: the
trace ends at that invocation and the status is `none` (crash).  No
`dlclose` is ever performed. -/
def mainRun (p : Platform) : List Event × Option Nat :=
  match p.openResult with
  | none => ([Event.openCall false], some EXIT_FAILURE)
  | some t =>
    let m := dlsym t "malloc"
    let pr := dlsym t "printf"
    let f := dlsym t "free"
    let invokes : List Event :=
      if pr = 0 then [Event.invokeCall pr]
      else if m = 0 then [Event.invokeCall pr, Event.invokeCall m]
      else [Event.invokeCall pr, Event.invokeCall m, Event.invokeCall f]
    let status : Option Nat :=
      if pr = 0 ∨ m = 0 ∨ f = 0 then none else some EXIT_SUCCESS
    (Event.openCall true :: Event.resolveCall "malloc" m ::
      Event.resolveCall "printf" pr :: Event.resolveCall "free" f ::
      Event.diagCall :: invokes, status)

/-- A table exporting the three symbols `main` resolves, at arbitrary
concrete non-null addresses. -/
def tblGood : SymTable :=
  ⟨[("malloc", 11), ("printf", 22), ("free", 33)], by decide⟩

/-- A table from which `"printf"` is missing (the other two resolve). -/
def tblNoPrintf : SymTable :=
  ⟨[("malloc", 11), ("free", 33)], by decide⟩

/-- Environment where `dlopen` succeeds and all three symbols resolve. -/
def pGood : Platform := ⟨some tblGood⟩

/-- Environment where `dlopen` succeeds but `"printf"` does not resolve. -/
def pNoPrintf : Platform := ⟨some tblNoPrintf⟩

/-- Environment where `dlopen` itself fails. -/
def pFail : Platform := ⟨none⟩

example : (mainRun pFail).snd = some EXIT_FAILURE := by decide
example : (mainRun pGood).snd = some EXIT_SUCCESS := by decide
example : (mainRun pNoPrintf).snd = none := by decide
example : Event.diagCall ∈ (mainRun pGood).fst := by decide

/-- The open mode passed to the platform loader (§4 of the spec):
`EAGER` (RTLD_NOW) resolves every undefined symbol at load time,
`LAZY` (RTLD_LAZY) defers resolution to first use. -/
inductive Mode where
  | EAGER : Mode
  | LAZY : Mode
deriving DecidableEq, Repr

/-- Modelled from the spec: the facts about an Open target that decide
whether the load can succeed — whether the target can be found, whether
it is a valid shared object for the platform, and whether all of its
undefined-symbol dependencies are resolvable. -/
structure Target where
  found : Bool
  validObject : Bool
  depsResolvable : Bool

/-- Modelled from the spec: the platform Open primitive (`dlopen` is not
part of the repository's sources).  It yields the target's export table,
and fails with `LoadError` (`none`) when the target cannot be found, is
not a valid shared object, or has unresolved dependencies under `EAGER`
mode; under `LAZY` mode unresolved dependencies do not fail the open. -/
def specOpen (tgt : Target) (m : Mode) (tbl : SymTable) : Option SymTable :=
  if tgt.found = true ∧ tgt.validObject = true ∧
      (m = Mode.LAZY ∨ tgt.depsResolvable = true) then
    some tbl
  else
    none

/-- Outcome of the spec-level Resolve: a resolved non-null address, or
the explicit `SymbolNotFoundError`. -/
inductive ResolveResult where
  | ok : Nat → ResolveResult
  | symbolNotFound : ResolveResult
deriving DecidableEq, Repr

/-- Modelled from the spec: the loader's process-wide state during one
Open session — the live handle's export table together with the
process-wide diagnostic (`dlerror`) slot that every loader call
overwrites. -/
structure LoaderState where
  table : SymTable
  diag : Option String

/-- Modelled from the spec: the Resolve operation on a live handle
(`dlsym` is not part of the repository's sources).  A name present in
the export table yields its address and clears the diagnostic; an absent
name fails with `SymbolNotFoundError` and writes the diagnostic — so
every Resolve call overwrites the process-wide diagnostic state. -/
def specResolve (σ : LoaderState) (s : String) : ResolveResult × LoaderState :=
  match lookupSym σ.table.entries s with
  | some a => (ResolveResult.ok a, { σ with diag := none })
  | none =>
      (ResolveResult.symbolNotFound,
       { σ with diag := some ("undefined symbol: " ++ s) })

/-- Event testers used by the temporal claims. -/
def isResolve : Event → Bool
  | Event.resolveCall _ _ => true
  | _ => false

def isInvoke : Event → Bool
  | Event.invokeCall _ => true
  | _ => false

/-- `Open completes before any Resolve`: every resolve event in the
trace is preceded (strictly earlier in the list) by a successful open
event. -/
def resolvesAfterOpen (tr : List Event) : Prop :=
  ∀ l₁ e l₂, tr = l₁ ++ e :: l₂ → isResolve e = true →
    Event.openCall true ∈ l₁

/-- `all Resolve calls complete before Close`: no resolve event occurs
after a close event in the trace. -/
def noResolveAfterClose (tr : List Event) : Prop :=
  ∀ l₁ l₂, tr = l₁ ++ Event.closeCall :: l₂ → ∀ e ∈ l₂, isResolve e = false

/-- Handle lifecycle states (§4.1 of the spec). -/
inductive HState where
  | unopened : HState
  | opened : HState
  | closed : HState
deriving DecidableEq, Repr

/-- One trace event's effect on the handle state: a successful open
makes it `opened`, a close makes it `closed`, everything else leaves it
unchanged. -/
def stepState (s : HState) : Event → HState
  | Event.openCall true => HState.opened
  | Event.closeCall => HState.closed
  | _ => s

/-- The handle state after a prefix of the trace has executed. -/
def runState (tr : List Event) : HState :=
  tr.foldl stepState HState.unopened

section Helpers

/-- A successful lookup returns an entry of the table. -/
lemma lookupSym_mem (l : List (String × Nat)) (s : String) (a : Nat)
    (h : lookupSym l s = some a) : (s, a) ∈ l := by
  induction l with
  | nil => simp [lookupSym] at h
  | cons hd tl ih =>
      obtain ⟨n, b⟩ := hd
      by_cases hn : n = s
      · subst hn
        simp [lookupSym] at h
        simp [h]
      · simp [lookupSym, hn] at h
        exact List.mem_cons_of_mem _ (ih h)

/-- The address `dlsym` returns for a present symbol is the table's. -/
lemma dlsym_eq_of_lookup (t : SymTable) (s : String) (a : Nat)
    (h : lookupSym t.entries s = some a) : dlsym t s = a := by
  simp [dlsym, h]

/-- `main` never emits a close event: the program has no `dlclose`. -/
lemma close_not_mem (p : Platform) : Event.closeCall ∉ (mainRun p).fst := by
  obtain ⟨o⟩ := p
  cases o with
  | none => simp [mainRun]
  | some t =>
      simp only [mainRun]
      split <;> (try split) <;> simp

/-- The trace of `main` is either the lone failed open, or begins with
the successful open. -/
lemma mainRun_fst_shape (p : Platform) :
    (mainRun p).fst = [Event.openCall false] ∨
    ∃ rest, (mainRun p).fst = Event.openCall true :: rest := by
  obtain ⟨o⟩ := p
  cases o with
  | none => exact Or.inl rfl
  | some t => exact Or.inr ⟨_, rfl⟩

/-- Once the handle is open, a close-free stretch of trace leaves it
open. -/
lemma foldl_stepState_opened (l : List Event) (h : Event.closeCall ∉ l) :
    l.foldl stepState HState.opened = HState.opened := by
  induction l with
  | nil => rfl
  | cons e tl ih =>
      have he : e ≠ Event.closeCall := fun hc => h (hc ▸ List.mem_cons_self e tl)
      have hstep : stepState HState.opened e = HState.opened := by
        cases e with
        | openCall b => cases b <;> rfl
        | resolveCall s a => rfl
        | diagCall => rfl
        | invokeCall a => rfl
        | closeCall => exact absurd rfl he
      rw [List.foldl_cons, hstep]
      exact ih fun hm => h (List.mem_cons_of_mem _ hm)

end Helpers

/-- C1: the claim says the handle returned by a successful `dlopen` is
closed exactly once before `main` exits.  The code contains no `dlclose`
at all: in every environment, the run's trace holds zero close events,
so on every successful open the handle leaks (closed zero times, not
once). -/
theorem main_never_closes_handle (p : Platform) :
    (mainRun p).fst.count Event.closeCall = 0 :=
  List.count_eq_zero.mpr (close_not_mem p)

/-- C2: the claim says `dlerror` is called only in the error branch of a
failed call, immediately after it, and never on a success path.  In the
run where `dlopen` and all three resolutions succeed and `main` returns
`EXIT_SUCCESS`, the trace still contains the `dlerror` call — placed
after all three intervening `dlsym` calls, on the success path. -/
theorem dlerror_called_on_success_path :
    Event.diagCall ∈ (mainRun pGood).fst ∧
    (mainRun pGood).snd = some EXIT_SUCCESS ∧
    (mainRun pGood).fst =
      [Event.openCall true, Event.resolveCall "malloc" 11,
       Event.resolveCall "printf" 22, Event.resolveCall "free" 33,
       Event.diagCall, Event.invokeCall 22, Event.invokeCall 11,
       Event.invokeCall 33] := by decide

/-- C3: the claim says every `dlsym` result is checked before use, so a
null resolution is never treated as success.  In an environment whose
export table lacks `"printf"`, the resolution returns the null address
`0` and the very next invocation calls that null pointer — no check
stands between resolution and invocation, and the run crashes. -/
theorem null_resolution_invoked_unchecked :
    Event.resolveCall "printf" 0 ∈ (mainRun pNoPrintf).fst ∧
    Event.invokeCall 0 ∈ (mainRun pNoPrintf).fst ∧
    (mainRun pNoPrintf).snd = none := by decide

/-- C4: when `dlopen` returns a null handle, `main` immediately returns
`EXIT_FAILURE`, and the trace holds nothing but the failed open: no
resolve, no invocation, no close is ever performed, and no partially
constructed handle is touched. -/
theorem open_failure_immediate_exit (p : Platform)
    (h : p.openResult = none) :
    (mainRun p).snd = some EXIT_FAILURE ∧
    (mainRun p).fst = [Event.openCall false] := by
  obtain ⟨o⟩ := p
  cases o with
  | none => exact ⟨rfl, rfl⟩
  | some t => simp at h

/-- Witness for C4 at the concrete failing environment. -/
theorem open_failure_immediate_exit_witness :
    (mainRun pFail).snd = some EXIT_FAILURE ∧
    (mainRun pFail).fst = [Event.openCall false] :=
  open_failure_immediate_exit pFail rfl

/-- C5: the spec-modelled Open fails exactly when the target cannot be
found, is not a valid shared object, or has unresolved dependencies
under EAGER mode; and in the program, whenever the open of the self
sentinel fails, `main` returns `EXIT_FAILURE` and its trace consists of
the failed open alone — no Resolve, Invoke or Close. -/
theorem open_failure_semantics :
    (∀ tgt m tbl, specOpen tgt m tbl = none ↔
      (tgt.found = false ∨ tgt.validObject = false ∨
        (m = Mode.EAGER ∧ tgt.depsResolvable = false))) ∧
    (∀ p : Platform, p.openResult = none →
      (mainRun p).snd = some EXIT_FAILURE ∧
      ∀ e ∈ (mainRun p).fst, e = Event.openCall false) := by
  constructor
  · intro tgt m tbl
    obtain ⟨f, v, d⟩ := tgt
    cases m <;> cases f <;> cases v <;> cases d <;> simp [specOpen]
  · intro p h
    obtain ⟨o⟩ := p
    cases o with
    | none =>
        refine ⟨rfl, ?_⟩
        intro e he
        simpa [mainRun] using he
    | some t => simp at h

/-- C6: a Resolve of a name present in the live handle's export table
succeeds with the table's address, that address is non-null, and an
immediately repeated Resolve in the same Open session — after the first
call has overwritten the process-wide diagnostic state — returns the
same result. -/
theorem resolve_present_nonnull_deterministic (σ : LoaderState)
    (s : String) (a : Nat) (h : lookupSym σ.table.entries s = some a) :
    (specResolve σ s).fst = ResolveResult.ok a ∧ a ≠ 0 ∧
    (specResolve (specResolve σ s).snd s).fst = (specResolve σ s).fst := by
  have ha : a ≠ 0 := σ.table.nonnull (s, a) (lookupSym_mem _ _ _ h)
  refine ⟨by simp [specResolve, h], ha, ?_⟩
  simp [specResolve, h]

/-- Witness for C6 at a concrete session and symbol. -/
theorem resolve_present_nonnull_deterministic_witness :
    (specResolve ⟨tblGood, none⟩ "malloc").fst = ResolveResult.ok 11 ∧
    (11 : Nat) ≠ 0 ∧
    (specResolve (specResolve ⟨tblGood, none⟩ "malloc").snd "malloc").fst =
      (specResolve ⟨tblGood, none⟩ "malloc").fst :=
  resolve_present_nonnull_deterministic ⟨tblGood, none⟩ "malloc" 11 (by decide)

/-- C7: in every run, each resolve event of the trace is preceded by the
completed successful open, and no resolve event follows a close event
(`main` performs no close at all, so the second part holds with no close
present). -/
theorem open_resolve_close_ordering (p : Platform) :
    resolvesAfterOpen (mainRun p).fst ∧
    noResolveAfterClose (mainRun p).fst := by
  constructor
  · intro l₁ e l₂ heq hres
    rcases mainRun_fst_shape p with hsh | ⟨rest, hsh⟩
    · rw [hsh] at heq
      cases l₁ with
      | nil =>
          simp only [List.nil_append, List.cons.injEq] at heq
          rw [← heq.1] at hres
          simp [isResolve] at hres
      | cons b l₁' =>
          simp only [List.cons_append, List.cons.injEq] at heq
          exact absurd heq.2.symm (List.append_ne_nil_of_right_ne_nil _ (List.cons_ne_nil _ _))
    · rw [hsh] at heq
      cases l₁ with
      | nil =>
          simp only [List.nil_append, List.cons.injEq] at heq
          rw [← heq.1] at hres
          simp [isResolve] at hres
      | cons b l₁' =>
          simp only [List.cons_append, List.cons.injEq] at heq
          rw [← heq.1]
          exact List.mem_cons_self _ _
  · intro l₁ l₂ heq e he
    exfalso
    apply close_not_mem p
    rw [heq]
    exact List.mem_append_right _ (List.mem_cons_self _ _)

/-- C8: every invocation of a resolved function pointer happens while
the handle is in the `opened` state: at any trace split whose next event
is an invocation, replaying the prefix leaves the handle open — in
particular no invocation ever follows a close. -/
theorem invoke_only_while_open (p : Platform) (l₁ : List Event) (e : Event)
    (l₂ : List Event) (heq : (mainRun p).fst = l₁ ++ e :: l₂)
    (hinv : isInvoke e = true) :
    runState l₁ = HState.opened := by
  rcases mainRun_fst_shape p with hsh | ⟨rest, hsh⟩
  · rw [hsh] at heq
    cases l₁ with
    | nil =>
        simp only [List.nil_append, List.cons.injEq] at heq
        rw [← heq.1] at hinv
        simp [isInvoke] at hinv
    | cons b l₁' =>
        simp only [List.cons_append, List.cons.injEq] at heq
        exact absurd heq.2.symm
          (List.append_ne_nil_of_right_ne_nil _ (List.cons_ne_nil _ _))
  · rw [hsh] at heq
    cases l₁ with
    | nil =>
        simp only [List.nil_append, List.cons.injEq] at heq
        rw [← heq.1] at hinv
        simp [isInvoke] at hinv
    | cons b l₁' =>
        simp only [List.cons_append, List.cons.injEq] at heq
        obtain ⟨hb, hrest⟩ := heq
        have hcl : Event.closeCall ∉ l₁' := by
          intro hm
          apply close_not_mem p
          rw [hsh, hrest]
          exact List.mem_cons_of_mem _ (List.mem_append_left _ hm)
        rw [← hb]
        unfold runState
        rw [List.foldl_cons]
        exact foldl_stepState_opened l₁' hcl

/-- Witness for C8 at a concrete run, split at the first invocation. -/
theorem invoke_only_while_open_witness :
    runState [Event.openCall true, Event.resolveCall "malloc" 11,
      Event.resolveCall "printf" 22, Event.resolveCall "free" 33,
      Event.diagCall] = HState.opened :=
  invoke_only_while_open pGood
    [Event.openCall true, Event.resolveCall "malloc" 11,
     Event.resolveCall "printf" 22, Event.resolveCall "free" 33,
     Event.diagCall]
    (Event.invokeCall 22)
    [Event.invokeCall 11, Event.invokeCall 33]
    (by decide) (by decide)

/-- C9, counterexample: the claim says `main` returns `EXIT_SUCCESS` in
every execution where `dlopen` succeeds, regardless of null `dlsym`
results.  In the environment where `dlopen` succeeds but `"printf"` does
not resolve, the run invokes a null pointer and produces no exit status
at all — neither `EXIT_SUCCESS` nor `EXIT_FAILURE`. -/
theorem exit_success_not_independent_of_resolve :
    pNoPrintf.openResult.isSome = true ∧
    (mainRun pNoPrintf).snd ≠ some EXIT_SUCCESS ∧
    (mainRun pNoPrintf).snd ≠ some EXIT_FAILURE := by decide

/-- C9, amended: `main` returns `EXIT_FAILURE` iff `dlopen` returns a
null handle; when `dlopen` succeeds and all three resolutions are
non-null, it returns `EXIT_SUCCESS`; when `dlopen` succeeds but some
resolution is null, the run invokes a null pointer (undefined behavior,
modelled as a crash) and returns no status. -/
theorem exit_status_semantics (p : Platform) :
    ((mainRun p).snd = some EXIT_FAILURE ↔ p.openResult = none) ∧
    (∀ t, p.openResult = some t →
      ((dlsym t "printf" ≠ 0 ∧ dlsym t "malloc" ≠ 0 ∧ dlsym t "free" ≠ 0) →
        (mainRun p).snd = some EXIT_SUCCESS) ∧
      ((dlsym t "printf" = 0 ∨ dlsym t "malloc" = 0 ∨ dlsym t "free" = 0) →
        (mainRun p).snd = none)) := by
  obtain ⟨o⟩ := p
  cases o with
  | none =>
      refine ⟨by simp [mainRun], ?_⟩
      intro t ht
      simp at ht
  | some t =>
      constructor
      · simp only [mainRun, EXIT_FAILURE, EXIT_SUCCESS]
        split <;> simp
      · intro t' ht'
        have : t = t' := by simpa using ht'
        subst this
        constructor
        · rintro ⟨hp, hm, hf⟩
          simp [mainRun, EXIT_SUCCESS, hp, hm, hf]
        · intro hdisj
          have : dlsym t "printf" = 0 ∨ dlsym t "malloc" = 0 ∨
              dlsym t "free" = 0 := hdisj
          simp only [mainRun]
          rcases this with h1 | h1 | h1 <;> simp [h1]

/-- C10: under the precondition that all three resolutions are non-null,
every function-pointer invocation the run performs calls a non-null
address. -/
theorem invocations_nonnull_under_precondition (p : Platform)
    (t : SymTable) (h : p.openResult = some t)
    (hm : dlsym t "malloc" ≠ 0) (hp : dlsym t "printf" ≠ 0)
    (hf : dlsym t "free" ≠ 0) :
    ∀ a, Event.invokeCall a ∈ (mainRun p).fst → a ≠ 0 := by
  intro a ha
  obtain ⟨o⟩ := p
  have : o = some t := by simpa using h
  subst this
  simp only [mainRun] at ha
  rw [if_neg hp, if_neg hm] at ha
  simp at ha
  rcases ha with h1 | h1 | h1 <;> (rw [h1]; assumption)

/-- Witness for C10 at the concrete healthy environment. -/
theorem invocations_nonnull_under_precondition_witness :
    Event.invokeCall 22 ∈ (mainRun pGood).fst ∧ (22 : Nat) ≠ 0 :=
  ⟨by decide,
   invocations_nonnull_under_precondition pGood tblGood rfl (by decide)
     (by decide) (by decide) 22 (by decide)⟩

end Dlopen
